import Mathlib

/-!
Shallow embedding of the core similarity-search engine of the
`int-img-search-eng` repository (source files `src/lib/db.ts` and
`src/lib/text-recognition.ts`), together with theorems settling the
frozen claims about its specification.

Floating-point numbers of the source are modelled as elements of a
linear ordered field: functions that are square-root free are stated
polymorphically (so they can be evaluated exactly over `ℚ`), and the
square-root-using vector/color metrics are stated over `ℝ` with
`Real.sqrt` standing for `Math.sqrt`.
-/

/-! ## Data model (`src/lib/db.ts`, interface `ImageRecord`) -/

/-- One OCR word together with its confidence (`{text, confidence}`). -/
structure OcrWord (α : Type) where
  text : String
  confidence : α
deriving Repr

/-- The `textContent` field of an image record, and likewise the OCR
result attached to a query (`{text, confidence, words}`). -/
structure TextContent (α : Type) where
  text : String
  confidence : α
  words : List (OcrWord α)
deriving Repr

/-- The optional `metadata` object produced by `extractImageMetadata`:
each field can be absent (the function resolves `{}` on failure). -/
structure VisualMetadata (α : Type) where
  dominantColors : Option (List String) := none
  brightness : Option α := none
  contrast : Option α := none
  colorEntropy : Option α := none
  edgeDensity : Option α := none
deriving Repr

/-- A stored image record (`interface ImageRecord` in `src/lib/db.ts`). -/
structure ImageRecord (α : Type) where
  id : String
  dataUrl : String
  embedding : List α
  timestamp : String
  metadata : Option (VisualMetadata α) := none
  textContent : Option (TextContent α) := none
deriving Repr

/-- The six per-metric scores attached to a search result
(`metrics: {cosine, euclidean, manhattan, color, visualProps, text}`). -/
structure Metrics (α : Type) where
  cosine : α
  euclidean : α
  manhattan : α
  color : α
  visualProps : α
  text : α
deriving Repr

/-- The classifier flags of `analyzeImageCharacteristics`. -/
structure Characteristics where
  isTextHeavy : Bool
  isColorful : Bool
  isHighContrast : Bool
  isDetailed : Bool
deriving Repr, DecidableEq

/-- A scored search result: the original record spread together with
`similarity`, `metrics`, `hasSignificantText` and `characteristics`
(the object literal built inside `calculateSimilarities`). -/
structure Scored (α : Type) where
  record : ImageRecord α
  similarity : α
  metrics : Metrics α
  hasSignificantText : Bool
  characteristics : Characteristics
deriving Repr

/-- The six-way weight vector returned by `getAdaptiveWeights`. -/
structure Weights (α : Type) where
  cosine : α
  euclidean : α
  manhattan : α
  color : α
  visualProps : α
  text : α
deriving Repr

/-- Distribution statistics computed by `analyzeDistribution`.  The
source stores `stdDev = Math.sqrt(variance)`; we record the radicand
`variance` (the square root is taken only at `ℝ`, see `statsStdDev`)
because no consumer of the statistics ever reads the standard
deviation.  `quartiles` is the triple `[q1, median, q3]` of the source. -/
structure Stats (α : Type) where
  mean : α
  variance : α
  median : α
  quartiles : α × α × α
  gaps : List α
deriving Repr

/-- The standard deviation stored by the source at `ℝ`:
`Math.sqrt(variance)`. -/
noncomputable def statsStdDev (s : Stats ℝ) : ℝ := Real.sqrt s.variance

section TextEngine

variable {α : Type} [LinearOrderedField α] [DecidableEq α]
variable [DecidableRel ((· < ·) : α → α → Prop)]
variable [DecidableRel ((· ≤ ·) : α → α → Prop)]

/-! ## Text Similarity Engine (`src/lib/text-recognition.ts`) -/

/-- Entry of the word-frequency maps `wordsMapA`/`wordsMapB`:
`word → {confidence, count}`, kept as an association list in JS-`Map`
insertion order. -/
abbrev WordEntry (α : Type) := String × α × ℕ

/-- Insert one word occurrence into a word map: an existing entry gets
`count+1` and `confidence = max` (in place, preserving order), a new
word is appended at the end (JS `Map.set`). -/
def insertWord (m : List (WordEntry α)) (w : String) (conf : α) :
    List (WordEntry α) :=
  match m with
  | [] => [(w, conf, 1)]
  | (w', c, n) :: rest =>
    if w' = w then (w', max c conf, n + 1) :: rest
    else (w', c, n) :: insertWord rest w conf

/-- Build the word-frequency map of one side, skipping words shorter
than 2 characters (the `word.length < 2` guard). -/
def wordsMapOf (ws : List (OcrWord α)) : List (WordEntry α) :=
  ws.foldl (fun m w => if w.text.length < 2 then m else insertWord m w.text w.confidence) []

/-- Look a word up in a word map (JS `Map.get`). -/
def lookupWord (m : List (WordEntry α)) (w : String) : Option (α × ℕ) :=
  (m.find? (fun e => e.1 = w)).map (fun e => e.2)

/-- The fixed stop-word set of `calculateWordImportance` (the source
lists `"in"` twice; the duplicate is kept, membership is unaffected). -/
def stopWords : List String :=
  ["the", "and", "a", "an", "in", "on", "at", "to", "for", "of", "with", "by",
   "as", "is", "are", "was", "were", "be", "been", "being", "have", "has",
   "had", "do", "does", "did", "but", "or", "if", "then", "else", "when",
   "up", "down", "out", "in", "that", "this", "these", "those"]

/-- Membership in the character class
`[.,;:!?@#$%&*()-_+=[\]{}|<>/\\'"` ]` of the source.  Inside a regex
character class `)-_` is a *range* (code points 41 to 95, which also
covers digits and upper-case letters); the remaining members are
listed literally (some redundantly fall inside the range, mirroring
the source text). -/
def isSpecialChar (c : Char) : Bool :=
  c = '.' || c = ',' || c = ';' || c = ':' || c = '!' || c = '?' ||
  c = '@' || c = '#' || c = '$' || c = '%' || c = '&' || c = '*' ||
  c = '(' || (')' ≤ c && c ≤ '_') || c = '+' || c = '=' || c = '[' ||
  c = ']' || c = Char.ofNat 123 || c = Char.ofNat 125 || c = '|' ||
  c = '<' || c = '>' || c = '/' || c = '\\' || c = '\'' || c = '"' ||
  c = Char.ofNat 96 || c = ' '

/-- `calculateWordImportance`: length importance `min(1, len/5)`, stop
words scaled by `0.3`, words with a digit or special character by
`1.2`. -/
def calculateWordImportance (w : String) : α :=
  let lengthImportance : α := min 1 ((w.length : α) / 5)
  let contentImportance : α := if w ∈ stopWords then 0.3 else 1.0
  let hasNumbers := w.data.any Char.isDigit
  let hasSpecial := w.data.any isSpecialChar
  let specialImportance : α := if hasNumbers || hasSpecial then 1.2 else 1.0
  lengthImportance * contentImportance * specialImportance

/-- Weighted Jaccard similarity over the two word maps: the
`intersectionWeight` / `unionWeight` loops of `calculateTextSimilarity`
(`0` when the union weight is not positive). -/
def weightedJaccard (mA mB : List (WordEntry α)) : α :=
  let intersectionWeight :=
    (mA.map (fun e =>
      match lookupWord mB e.1 with
      | some cb =>
        e.2.1 * cb.1 * ((min e.2.2 cb.2 : ℕ) : α) * calculateWordImportance e.1
      | none => 0)).sum
  let unionWeight :=
    (mA.map (fun e => e.2.1 * ((e.2.2 : ℕ) : α) * calculateWordImportance e.1)).sum +
    ((mB.filter (fun e => lookupWord mA e.1 = none)).map
      (fun e => e.2.1 * ((e.2.2 : ℕ) : α) * calculateWordImportance e.1)).sum
  if unionWeight > 0 then intersectionWeight / unionWeight else 0

/-- Split a text into its whitespace-separated words.  The source
collapses whitespace runs, trims, and splits on a single space; on any
text containing a non-whitespace character this yields exactly the
list of maximal non-whitespace runs, and on whitespace-only text both
sides produce fewer than 2 words, which the caller maps to `0`. -/
def splitIntoWords (s : String) : List (List Char) :=
  (s.data.splitOnP Char.isWhitespace).filter (fun w => w ≠ [])

/-- Join a list of words with single spaces (the `join(" ")` applied
to each n-gram slice). -/
def joinWithSpace (ws : List (List Char)) : List Char :=
  match ws with
  | [] => []
  | w :: rest => w ++ (rest.map (fun v => ' ' :: v)).flatten

/-- All n-grams of length `k` of a word list, joined with spaces
(the `for i = 0; i <= words.length - k; i++` loop). -/
def ngrams (ws : List (List Char)) (k : ℕ) : List (List Char) :=
  (List.range (ws.length - k + 1)).map (fun i => joinWithSpace ((ws.drop i).take k))

/-- One n-gram length step of `calculatePhraseMatches`: fold over B's
n-grams, counting matches against A's n-gram set and accumulating
`(totalPhraseMatches, maxPhraseLength, weightedPhraseScore)`. -/
def phraseStep (wsA wsB : List (List Char)) (acc : ℕ × ℕ × α) (k : ℕ) : ℕ × ℕ × α :=
  let phrasesA := ngrams wsA k
  (ngrams wsB k).foldl
    (fun a p =>
      if p ∈ phrasesA then (a.1 + 1, max a.2.1 k, a.2.2 + (k : α) * 0.1) else a)
    acc

/-- `calculatePhraseMatches`: accumulate `0.1 × length` per matching
n-gram for lengths 2..6 (bounded by the shorter word count), add
`0.1 × longest match`, cap at `1`. -/
def calculatePhraseMatches (textA textB : String) : α :=
  let wordsA := splitIntoWords textA
  let wordsB := splitIntoWords textB
  if wordsA.length < 2 ∨ wordsB.length < 2 then 0
  else
    let K := min 6 (min wordsA.length wordsB.length)
    let r : ℕ × ℕ × α := (List.range' 2 (K - 1)).foldl (phraseStep wordsA wordsB) (0, 0, 0)
    let phraseMatchScore : α := if r.1 > 0 then r.2.2 + (r.2.1 : α) * 0.1 else 0
    min 1 phraseMatchScore

/-- Inner loop of one Levenshtein DP row: walks `b` zipped with the
tail of the previous row, carrying the diagonal and the value to the
left. -/
def levLoop (x : Char) : List (Char × ℕ) → ℕ → ℕ → List ℕ
  | [], _, _ => []
  | (bc, pj) :: rest, diag, left =>
    let cur := min (min (pj + 1) (left + 1)) (diag + (if x = bc then 0 else 1))
    cur :: levLoop x rest pj cur

/-- One row of the Levenshtein matrix: `matrix[i]` from `matrix[i-1]`. -/
def levRow (x : Char) (b : List Char) (prev : List ℕ) : List ℕ :=
  let first := prev.headD 0 + 1
  first :: levLoop x (b.zip prev.tail) (prev.headD 0) first

/-- `levenshteinDistance`, computed row by row exactly as the matrix
of the source (`matrix[0][j] = j`, `matrix[i][0] = i`, minimum of
deletion, insertion and substitution). -/
def levenshteinDistance (a b : List Char) : ℕ :=
  (a.foldl (fun row x => levRow x b row) (List.range (b.length + 1))).getLastD 0

/-- `calculateFuzzyMatches`: for every pair of distinct words of
length ≥ 4, add `similarity·confA·confB·importance(wordA)` when the
normalized Levenshtein similarity exceeds `0.75`; normalize by
`max(1, |mapA|)` and cap at `1`.  (The source's `processedPairs` set
never skips anything because map keys are unique.) -/
def calculateFuzzyMatches (mA mB : List (WordEntry α)) : α :=
  let score := mA.foldl
    (fun acc ea =>
      if ea.1.length < 4 then acc
      else
        mB.foldl
          (fun acc2 eb =>
            if eb.1.length < 4 ∨ ea.1 = eb.1 then acc2
            else
              let d := levenshteinDistance ea.1.data eb.1.data
              let maxLength := max ea.1.length eb.1.length
              let similarity : α := 1 - (d : α) / (maxLength : α)
              if similarity > 0.75 then
                acc2 + similarity * ea.2.1 * eb.2.1 * calculateWordImportance ea.1
              else acc2)
          acc)
    0
  min 1 (score / max 1 ((mA.length : ℕ) : α))

/-- `calculateTextSimilarity`: `0` if either side has no text or no
words, else `0.5 × weighted Jaccard + 0.3 × phrase bonus + 0.2 × fuzzy
score`. -/
def calculateTextSimilarity (textA textB : TextContent α) : α :=
  if textA.text = "" ∨ textB.text = "" ∨ textA.words.length = 0 ∨ textB.words.length = 0 then 0
  else
    let mA := wordsMapOf textA.words
    let mB := wordsMapOf textB.words
    let weightedJaccardSim := weightedJaccard mA mB
    let phraseBonus : α := calculatePhraseMatches textA.text textB.text
    let fuzzyMatchScore := calculateFuzzyMatches mA mB
    weightedJaccardSim * 0.5 + phraseBonus * 0.3 + fuzzyMatchScore * 0.2

end TextEngine

section Scoring

variable {α : Type} [LinearOrderedField α] [DecidableEq α]
variable [DecidableRel ((· < ·) : α → α → Prop)]
variable [DecidableRel ((· ≤ ·) : α → α → Prop)]

/-! ## Characteristic Classifier and Adaptive Weight Selector
(`src/lib/db.ts`) -/

/-- JS truthiness of an optional numeric field: present and nonzero. -/
def numFieldTruthy (o : Option α) : Bool :=
  match o with
  | none => false
  | some x => decide (x ≠ 0)

/-- Model of the ternary `o ? f(o) : false` on an optional numeric
field, with JS number truthiness (`0` is falsy). -/
def truthyGate (o : Option α) (f : α → Bool) : Bool :=
  match o with
  | none => false
  | some x => if x = 0 then false else f x

/-- `analyzeImageCharacteristics`.  The `queryMetadata` argument is
accepted but never read, exactly as in the source. -/
def analyzeImageCharacteristics (image : ImageRecord α)
    (queryMetadata : VisualMetadata α) : Characteristics :=
  let isTextHeavy :=
    match image.textContent with
    | some t =>
      decide (t.text ≠ "") && decide (5 < t.words.length) && decide ((0.6 : α) < t.confidence)
    | none => false
  let isColorful :=
    match image.metadata with
    | some m => truthyGate m.colorEntropy (fun e => decide ((0.7 : α) < e))
    | none => false
  let isHighContrast :=
    match image.metadata with
    | some m => truthyGate m.contrast (fun c => decide ((0.6 : α) < c))
    | none => false
  let isDetailed :=
    match image.metadata with
    | some m => truthyGate m.edgeDensity (fun e => decide ((0.5 : α) < e))
    | none => false
  ⟨isTextHeavy, isColorful, isHighContrast, isDetailed⟩

/-- The weight vector of `getAdaptiveWeights` *before* the final
normalization: base weights followed by the five adjustment steps, in
source order. -/
def adaptiveWeightsRaw (characteristics : Characteristics)
    (hasSignificantText : Bool) (textSim cosSim euclideanSim colorSim : α) :
    Weights α :=
  let weights : Weights α := ⟨0.3, 0.25, 0.15, 0.2, 0.05, 0.05⟩
  let weights :=
    if characteristics.isTextHeavy || hasSignificantText then
      let textWeight : α := 0.2 + textSim * 0.3
      (⟨0.25 - textWeight * 0.1, 0.2 - textWeight * 0.05, 0.1, 0.15, 0.05,
        textWeight⟩ : Weights α)
    else weights
  let weights :=
    if characteristics.isColorful then
      { weights with
        color := min 0.3 (weights.color * 1.5)
        cosine := weights.cosine - 0.05 }
    else weights
  let weights :=
    if characteristics.isDetailed then
      { weights with
        cosine := min 0.35 (weights.cosine * 1.2)
        euclidean := min 0.3 (weights.euclidean * 1.2)
        color := weights.color - 0.05 }
    else weights
  let weights :=
    if cosSim > 0.8 then { weights with cosine := min 0.4 (weights.cosine * 1.2) }
    else weights
  let weights :=
    if colorSim > 0.8 then { weights with color := min 0.3 (weights.color * 1.2) }
    else weights
  weights

/-- Sum of the six weights (`Object.values(weights).reduce(+)`). -/
def weightsSum (w : Weights α) : α :=
  w.cosine + w.euclidean + w.manhattan + w.color + w.visualProps + w.text

/-- `getAdaptiveWeights`: the adjusted weights divided by their total. -/
def getAdaptiveWeights (characteristics : Characteristics)
    (hasSignificantText : Bool) (textSim cosSim euclideanSim colorSim : α) :
    Weights α :=
  let weights := adaptiveWeightsRaw characteristics hasSignificantText
    textSim cosSim euclideanSim colorSim
  let totalWeight := weightsSum weights
  ⟨weights.cosine / totalWeight, weights.euclidean / totalWeight,
   weights.manhattan / totalWeight, weights.color / totalWeight,
   weights.visualProps / totalWeight, weights.text / totalWeight⟩

/-! ## Distribution Analyzer and Threshold Selector (`src/lib/db.ts`) -/

/-- Insert into a descending-sorted list (stable, as JS
`sort((a,b) => b - a)`). -/
def insertDesc (x : α) : List α → List α
  | [] => [x]
  | y :: ys => if x > y then x :: y :: ys else y :: insertDesc x ys

/-- Sort a list of numbers in descending order. -/
def sortDesc (l : List α) : List α := l.foldr insertDesc []

/-- Differences between adjacent entries
(`sorted[i] - sorted[i+1]`). -/
def adjacentGaps : List α → List α
  | x :: y :: rest => (x - y) :: adjacentGaps (y :: rest)
  | _ => []

/-- `analyzeDistribution`: mean, (radicand of the) standard deviation,
median, quartiles `[q1, median, q3]` of the descending-sorted scores at
indices `⌊n/4⌋`, `⌊n/2⌋`, `⌊3n/4⌋`, and the three largest adjacent
gaps. -/
def analyzeDistribution (scores : List α) : Stats α :=
  if scores.length = 0 then ⟨0, 0, 0, (0, 0, 0), []⟩
  else
    let n := scores.length
    let mean := scores.sum / (n : α)
    let variance := (scores.map (fun s => (s - mean) ^ 2)).sum / (n : α)
    let sortedScores := sortDesc scores
    let median := sortedScores.getD (n / 2) 0
    let q1 := sortedScores.getD (n / 4) 0
    let q3 := sortedScores.getD (n * 3 / 4) 0
    let gaps := sortDesc (adjacentGaps sortedScores)
    ⟨mean, variance, median, (q1, median, q3), gaps.take 3⟩

/-- Loop of `findGapIndex`, carrying the running index. -/
def findGapIndexAux (targetGap : α) : ℤ → List α → ℤ
  | _, [] => -1
  | _, [_] => -1
  | i, x :: y :: rest =>
    if |x - y - targetGap| < 0.001 then i
    else findGapIndexAux targetGap (i + 1) (y :: rest)

/-- `findGapIndex`: first index whose adjacent gap is within `0.001`
of the target, `-1` if none. -/
def findGapIndex (scores : List α) (targetGap : α) : ℤ :=
  findGapIndexAux targetGap 0 scores

/-- `determineOptimalThreshold`: base `0.45`; with at least 3 results
apply, in order, the largest-gap midpoint rule, the quartile rule, the
dominant-top-result rule and the text-match rule; finally clamp to
`[0.4, 0.85]`. -/
def determineOptimalThreshold (results : List (Scored α)) (stats : Stats α) : α :=
  let threshold : α := 0.45
  let threshold :=
    if 3 ≤ results.length then
      let scores := results.map (fun r => r.similarity)
      let t1 :=
        if 0 < stats.gaps.length ∧ stats.gaps.headD 0 > 0.1 then
          let gapIndex := findGapIndex scores (stats.gaps.headD 0)
          if 0 < gapIndex ∧ gapIndex < (results.length : ℤ) - 1 then
            max threshold
              ((scores.getD gapIndex.toNat 0 + scores.getD (gapIndex.toNat + 1) 0) / 2)
          else threshold
        else threshold
      let t2 :=
        if stats.quartiles.1 - stats.quartiles.2.2 > 0.2 then max t1 stats.quartiles.2.2
        else t1
      let t3 :=
        if scores.getD 0 0 > 0.8 ∧ 1 < results.length ∧
            scores.getD 0 0 - scores.getD 1 0 > 0.2 then
          max t2 (scores.getD 0 0 * 0.8)
        else t2
      let t4 :=
        if results.any (fun r => decide (r.metrics.text > 0.5)) then max 0.4 (t3 * 0.9)
        else t3
      t4
    else threshold
  min (max 0.4 threshold) 0.85

/-! ## Visual Metadata Comparator (`src/lib/db.ts`) -/

/-- `visualPropertiesSimilarity`: weighted sum of `1 − |difference|`
terms, each term `0.5` when either side of the field is absent or `0`
(JS truthiness), and `0.5` overall when either object is missing. -/
def visualPropertiesSimilarity (propsA propsB : Option (VisualMetadata α)) : α :=
  match propsA, propsB with
  | some A, some B =>
    let brightnessSim : α :=
      if numFieldTruthy A.brightness && numFieldTruthy B.brightness then
        1 - |A.brightness.getD 0 - B.brightness.getD 0|
      else 0.5
    let contrastSim : α :=
      if numFieldTruthy A.contrast && numFieldTruthy B.contrast then
        1 - |A.contrast.getD 0 - B.contrast.getD 0|
      else 0.5
    let entropySim : α :=
      if numFieldTruthy A.colorEntropy && numFieldTruthy B.colorEntropy then
        1 - |A.colorEntropy.getD 0 - B.colorEntropy.getD 0|
      else 0.5
    let edgeSim : α :=
      if numFieldTruthy A.edgeDensity && numFieldTruthy B.edgeDensity then
        1 - |A.edgeDensity.getD 0 - B.edgeDensity.getD 0|
      else 0.5
    brightnessSim * 0.3 + contrastSim * 0.2 + entropySim * 0.25 + edgeSim * 0.25
  | _, _ => 0.5

/-- `manhattanDistance` (the chunked loop is a plain sum; the source
throws on a length mismatch, and every use in this file is at equal
lengths). -/
def manhattanDistance (a b : List α) : α :=
  ((a.zip b).map (fun p => |p.1 - p.2|)).sum

end Scoring

/-! ## The rgb() parser of `colorSimilarity` -/

/-- Digit run to number (`Number.parseInt` on a digit string). -/
def digitsToNat (ds : List Char) : ℕ :=
  ds.foldl (fun n c => n * 10 + (c.toNat - 48)) 0

/-- Greedy `\d+`: at least one leading digit, returning the value and
the rest of the input. -/
def parseNatDigits (cs : List Char) : Option (ℕ × List Char) :=
  let ds := cs.takeWhile Char.isDigit
  if ds.length = 0 then none else some (digitsToNat ds, cs.drop ds.length)

/-- One match attempt of the regular expression
`/rgb$$(\d+),(\d+),(\d+)$$/` at the start of the given suffix of the
input.  In JavaScript a bare `$` (no `m` flag) matches only at the very
end of the input, so after the literal `rgb` both `$` anchors require
the remaining input to be empty, and the digit groups, commas and
trailing anchors are matched from there. -/
def rgbMatchAttempt (cs : List Char) : Option (ℕ × ℕ × ℕ) :=
  match cs with
  | 'r' :: 'g' :: 'b' :: rest =>
    if rest.length = 0 then
      match parseNatDigits rest with
      | none => none
      | some (r, rest1) =>
        match rest1 with
        | ',' :: rest2 =>
          match parseNatDigits rest2 with
          | none => none
          | some (g, rest3) =>
            match rest3 with
            | ',' :: rest4 =>
              match parseNatDigits rest4 with
              | none => none
              | some (b, rest5) => if rest5.length = 0 then some (r, g, b) else none
            | _ => none
        | _ => none
      else none
  | _ => none

/-- `String.prototype.match` scans every start position left to
right. -/
def rgbScan : List Char → Option (ℕ × ℕ × ℕ)
  | [] => rgbMatchAttempt []
  | c :: cs =>
    match rgbMatchAttempt (c :: cs) with
    | some v => some v
    | none => rgbScan cs

/-- `parseRgb` of `colorSimilarity`: `[0, 0, 0]` when the regular
expression does not match.  (The source's per-call `rgbCache` is pure
memoization with no observable effect.) -/
def parseRgb (s : String) : ℕ × ℕ × ℕ :=
  (rgbScan s.data).getD (0, 0, 0)

/-! ## Vector Metric Library and color similarity over `ℝ`
(`Math.sqrt` is `Real.sqrt`) -/

/-- `cosineSimilarity` (the chunked loops are plain sums; the source
throws on a length mismatch, and every use in this file is at equal
lengths). -/
noncomputable def cosineSimilarity (a b : List ℝ) : ℝ :=
  let dotProduct := ((a.zip b).map (fun p => p.1 * p.2)).sum
  let normA := Real.sqrt ((a.map (fun x => x * x)).sum)
  let normB := Real.sqrt ((b.map (fun x => x * x)).sum)
  if normA = 0 ∨ normB = 0 then 0 else dotProduct / (normA * normB)

/-- `euclideanDistance`. -/
noncomputable def euclideanDistance (a b : List ℝ) : ℝ :=
  Real.sqrt (((a.zip b).map (fun p => (p.1 - p.2) * (p.1 - p.2))).sum)

/-- The euclidean similarity expression of `calculateSimilarities`:
`1 − euclideanDistance / √2`. -/
noncomputable def euclideanSimOf (a b : List ℝ) : ℝ :=
  1 - euclideanDistance a b / Real.sqrt 2

/-- `colorDistance`: RGB euclidean distance normalized by `441.67`. -/
noncomputable def colorDistance (c1 c2 : String) : ℝ :=
  let rgb1 := parseRgb c1
  let rgb2 := parseRgb c2
  let rDiff : ℝ := (rgb1.1 : ℝ) - (rgb2.1 : ℝ)
  let gDiff : ℝ := (rgb1.2.1 : ℝ) - (rgb2.2.1 : ℝ)
  let bDiff : ℝ := (rgb1.2.2 : ℝ) - (rgb2.2.2 : ℝ)
  Real.sqrt (rDiff * rDiff + gDiff * gDiff + bDiff * bDiff) / 441.67

/-- `colorSimilarity`: `0.5` when either list is missing or empty;
otherwise, for each of A's top 3 colors, `1 −` the smallest distance to
B's top 3 colors (starting from a worst match of `1.0`), averaged over
A's top colors. -/
noncomputable def colorSimilarity (colorsA colorsB : Option (List String)) : ℝ :=
  match colorsA, colorsB with
  | some la, some lb =>
    if la.length = 0 ∨ lb.length = 0 then 0.5
    else
      let topColorsA := la.take 3
      let topColorsB := lb.take 3
      let totalSimilarity :=
        (topColorsA.map (fun cA =>
          1 - topColorsB.foldl (fun best cB => min best (colorDistance cA cB)) 1.0)).sum
      totalSimilarity / (topColorsA.length : ℝ)
  | _, _ => 0.5

/-! ## Similarity Fusion and Ranking Orchestrator over `ℝ` -/

/-- The color-metric expression of `calculateSimilarities`:
`image.metadata?.dominantColors ? colorSimilarity(queryMetadata.dominantColors,
image.metadata.dominantColors) : 0.5`. -/
noncomputable def recordColorMetric (queryMetadata : VisualMetadata ℝ)
    (image : ImageRecord ℝ) : ℝ :=
  match image.metadata with
  | some m =>
    match m.dominantColors with
    | some cols => colorSimilarity queryMetadata.dominantColors (some cols)
    | none => 0.5
  | none => 0.5

/-- Scoring of one record inside `calculateSimilarities`: the six
component scores, the significant-text flag, the characteristics, the
adaptive weights, the compounding penalties, and the fused score. -/
noncomputable def scoreRecord (embedding : List ℝ) (queryMetadata : VisualMetadata ℝ)
    (textContent : Option (TextContent ℝ)) (image : ImageRecord ℝ) : Scored ℝ :=
  let cosSim := cosineSimilarity embedding image.embedding
  let euclideanSim := euclideanSimOf embedding image.embedding
  let manhattanSim := 1 - manhattanDistance embedding image.embedding / (2 * (embedding.length : ℝ))
  let colorSim := recordColorMetric queryMetadata image
  let visualPropsSim := visualPropertiesSimilarity (some queryMetadata) image.metadata
  let textSim :=
    match textContent, image.textContent with
    | some tq, some ti => if tq.text ≠ "" ∧ ti.text ≠ "" then calculateTextSimilarity tq ti else 0
    | _, _ => 0
  let hasSignificantText :=
    (match textContent with | some tq => decide (3 < tq.words.length) | none => false) &&
    (match image.textContent with | some ti => decide (3 < ti.words.length) | none => false) &&
    decide ((0.2 : ℝ) < textSim)
  let imageCharacteristics := analyzeImageCharacteristics image queryMetadata
  let weights := getAdaptiveWeights imageCharacteristics hasSignificantText
    textSim cosSim euclideanSim colorSim
  let penaltyFactor : ℝ := 1.0
  let penaltyFactor := if cosSim < 0.4 ∧ euclideanSim < 0.4 then penaltyFactor * 0.8 else penaltyFactor
  let penaltyFactor := if colorSim < 0.3 then penaltyFactor * 0.9 else penaltyFactor
  let penaltyFactor := if hasSignificantText = true ∧ textSim < 0.2 then penaltyFactor * 0.85 else penaltyFactor
  let combinedSim :=
    (cosSim * weights.cosine + euclideanSim * weights.euclidean +
     manhattanSim * weights.manhattan + colorSim * weights.color +
     visualPropsSim * weights.visualProps + textSim * weights.text) * penaltyFactor
  ⟨image, combinedSim,
   ⟨cosSim, euclideanSim, manhattanSim, colorSim, visualPropsSim, textSim⟩,
   hasSignificantText, imageCharacteristics⟩

/-- `calculateSimilarities`: every record scored against the query.
The batching in groups of 20 behind `setTimeout` is a scheduling
device; the concatenation of the batches is the plain map. -/
noncomputable def calculateSimilarities (images : List (ImageRecord ℝ))
    (embedding : List ℝ) (queryMetadata : VisualMetadata ℝ)
    (textContent : Option (TextContent ℝ)) : List (Scored ℝ) :=
  images.map (scoreRecord embedding queryMetadata textContent)

/-- Insert into a similarity-descending list (stable, as JS
`sort((a,b) => b.similarity - a.similarity)`). -/
noncomputable def insertScoredDesc (x : Scored ℝ) : List (Scored ℝ) → List (Scored ℝ)
  | [] => [x]
  | y :: ys => if x.similarity > y.similarity then x :: y :: ys else y :: insertScoredDesc x ys

/-- Sort scored results by similarity, highest first. -/
noncomputable def sortScoredDesc (l : List (Scored ℝ)) : List (Scored ℝ) :=
  l.foldr insertScoredDesc []

/-- The threshold computed inside a `searchImagesByEmbedding` call (for
an empty store the pipeline returns before any threshold is computed;
this function then returns the base value, which no theorem relies
on). -/
noncomputable def searchThreshold (extractImageMetadata : String → VisualMetadata ℝ)
    (images : List (ImageRecord ℝ)) (embedding : List ℝ)
    (textContent : Option (TextContent ℝ)) : ℝ :=
  match images with
  | [] => 0.45
  | img0 :: rest =>
    let queryMetadata := extractImageMetadata img0.dataUrl
    let results := sortScoredDesc
      (calculateSimilarities (img0 :: rest) embedding queryMetadata textContent)
    determineOptimalThreshold results
      (analyzeDistribution (results.map (fun r => r.similarity)))

/-- `searchImagesByEmbedding`, the ranking orchestrator: empty store
returns `[]`; otherwise the "query" metadata is extracted from
`images[0].dataUrl` (the first *stored* record — the browser-canvas
`extractImageMetadata` is passed in as a function, the search call has
no query image input), every record is scored, results are sorted by
similarity, a threshold is derived from the score distribution, and the
strictly-above-threshold results are truncated to at most 15. -/
noncomputable def searchImagesByEmbedding
    (extractImageMetadata : String → VisualMetadata ℝ)
    (images : List (ImageRecord ℝ)) (embedding : List ℝ)
    (textContent : Option (TextContent ℝ)) : List (Scored ℝ) :=
  match images with
  | [] => []
  | img0 :: rest =>
    let queryMetadata := extractImageMetadata img0.dataUrl
    let results := calculateSimilarities (img0 :: rest) embedding queryMetadata textContent
    let sorted := sortScoredDesc results
    let similarityStats := analyzeDistribution (sorted.map (fun r => r.similarity))
    let threshold := determineOptimalThreshold sorted similarityStats
    (sorted.filter (fun r => decide (threshold < r.similarity))).take 15

/-! ## Predicates and concrete fixtures used by the theorems below -/

/-- The dominant-color string format produced by `extractImageMetadata`:
`` `rgb(${r},${g},${b})` `` for natural components. -/
def isRgbFormat (s : String) : Prop :=
  ∃ r g b : ℕ, s = "rgb(" ++ toString r ++ "," ++ toString g ++ "," ++ toString b ++ ")"

/-- Unit normalization of a feature vector: the squares sum to 1. -/
def isUnitVector (a : List ℝ) : Prop := (a.map (fun x => x * x)).sum = 1

/-- The identical-OCR scenario input: text `"hello world"`, words
`[{"hello", 0.9}, {"world", 0.9}]`. -/
def tHelloWorld : TextContent ℚ :=
  ⟨"hello world", 0.9, [⟨"hello", 0.9⟩, ⟨"world", 0.9⟩]⟩

/-- A bare record carrying no metadata and no text (rational copy). -/
def plainRecordQ : ImageRecord ℚ := ⟨"r", "u", [], "t", none, none⟩

/-- A scored-result fixture with a given similarity and text metric. -/
def mkScoredQ (s t : ℚ) : Scored ℚ :=
  ⟨plainRecordQ, s, ⟨0, 0, 0, 0, 0, t⟩, false, ⟨false, false, false, false⟩⟩

/-- A bare stored record carrying no metadata and no text. -/
def recU : ImageRecord ℝ := ⟨"a", "u", [], "t", none, none⟩

/-- The metadata object `{}` (every field absent). -/
def emptyVisualMetadataR : VisualMetadata ℝ := ⟨none, none, none, none, none⟩

attribute [local semireducible] Rat.add Rat.sub Rat.mul Rat.inv Rat.ofScientific

/-! ## Helper lemmas -/

theorem mem_insertScoredDesc {x y : Scored ℝ} {l : List (Scored ℝ)} :
    x ∈ insertScoredDesc y l ↔ x = y ∨ x ∈ l := by
  induction l with
  | nil => simp [insertScoredDesc]
  | cons z zs ih =>
    by_cases h : y.similarity > z.similarity
    · simp [insertScoredDesc, h]
    · simp [insertScoredDesc, h, ih]
      tauto

theorem mem_sortScoredDesc {x : Scored ℝ} {l : List (Scored ℝ)} :
    x ∈ sortScoredDesc l ↔ x ∈ l := by
  induction l with
  | nil => simp [sortScoredDesc]
  | cons z zs ih =>
    simp only [sortScoredDesc, List.foldr_cons] at ih ⊢
    rw [mem_insertScoredDesc, ih, List.mem_cons]

/-! ## Claim C9 -/

/-- Claim C9: `colorSimilarity` returns exactly `0.5` whenever either
dominant-color list is empty or missing, for every value of the other
list. -/
theorem colorSimilarity_neutral_of_empty (a b : Option (List String))
    (h : a = none ∨ b = none ∨ a = some [] ∨ b = some []) :
    colorSimilarity a b = 0.5 := by
  cases a with
  | none => cases b <;> rfl
  | some la =>
    cases b with
    | none => rfl
    | some lb =>
      have hcond : la.length = 0 ∨ lb.length = 0 := by
        rcases h with h | h | h | h
        · exact absurd h (by simp)
        · exact absurd h (by simp)
        · left
          injection h with h'
          rw [h']
          rfl
        · right
          injection h with h'
          rw [h']
          rfl
      simp only [colorSimilarity, if_pos hcond]

/-- Witness for C9 at a concrete input: an empty record-side list
against a query with colors present. -/
theorem colorSimilarity_neutral_of_empty_witness :
    colorSimilarity (some ["rgb(10,20,30)"]) (some []) = 0.5 :=
  colorSimilarity_neutral_of_empty _ _ (Or.inr (Or.inr (Or.inr rfl)))

/-! ## Claim C8 -/

/-- Claim C8: for every nonempty batch of scored results and its
distribution statistics, the threshold returned by
`determineOptimalThreshold` lies in the closed interval
`[0.4, 0.85]`. -/
theorem determineOptimalThreshold_mem_Icc {α : Type} [LinearOrderedField α]
    [DecidableEq α] [DecidableRel ((· < ·) : α → α → Prop)]
    [DecidableRel ((· ≤ ·) : α → α → Prop)]
    (results : List (Scored α)) (h : results ≠ []) :
    0.4 ≤ determineOptimalThreshold results
        (analyzeDistribution (results.map (fun r => r.similarity))) ∧
      determineOptimalThreshold results
        (analyzeDistribution (results.map (fun r => r.similarity))) ≤ 0.85 := by
  obtain ⟨t, ht⟩ : ∃ t, determineOptimalThreshold results
      (analyzeDistribution (results.map (fun r => r.similarity))) =
      min (max 0.4 t) 0.85 := ⟨_, rfl⟩
  rw [ht]
  constructor
  · exact le_min (le_max_left _ _) (by norm_num)
  · exact min_le_right _ _

/-- Witness for C8 at a concrete nonempty rational batch. -/
theorem determineOptimalThreshold_mem_Icc_witness :
    0.4 ≤ determineOptimalThreshold [mkScoredQ 0.7 0]
        (analyzeDistribution ([mkScoredQ 0.7 0].map (fun r => r.similarity))) ∧
      determineOptimalThreshold [mkScoredQ 0.7 0]
        (analyzeDistribution ([mkScoredQ 0.7 0].map (fun r => r.similarity))) ≤ 0.85 :=
  determineOptimalThreshold_mem_Icc [mkScoredQ 0.7 0] (by simp)

/-! ## Claim C7 -/

/-- Claim C7: for every store contents and query, `search` returns at
most 15 entries, and every returned entry's similarity strictly exceeds
the threshold computed for that call. -/
theorem search_card_and_threshold (f : String → VisualMetadata ℝ)
    (images : List (ImageRecord ℝ)) (embedding : List ℝ)
    (textContent : Option (TextContent ℝ)) :
    (searchImagesByEmbedding f images embedding textContent).length ≤ 15 ∧
      ∀ r ∈ searchImagesByEmbedding f images embedding textContent,
        searchThreshold f images embedding textContent < r.similarity := by
  cases images with
  | nil => simp [searchImagesByEmbedding]
  | cons i0 rest =>
    refine ⟨?_, ?_⟩
    · simp only [searchImagesByEmbedding, List.length_take]
      exact min_le_left _ _
    · intro r hr
      have hmem := List.mem_of_mem_take hr
      have hf := List.mem_filter.mp hmem
      exact of_decide_eq_true hf.2

/-- Witness for C7 at a concrete call (the empty store). -/
theorem search_card_and_threshold_witness :
    (searchImagesByEmbedding (fun _ => emptyVisualMetadataR) [] [] none).length ≤ 15 ∧
      ∀ r ∈ searchImagesByEmbedding (fun _ => emptyVisualMetadataR) [] [] none,
        searchThreshold (fun _ => emptyVisualMetadataR) [] [] none < r.similarity :=
  search_card_and_threshold (fun _ => emptyVisualMetadataR) [] [] none

/-! ## Claim C2: the rgb() regular expression never matches -/

theorem rgbMatchAttempt_eq_none (cs : List Char) : rgbMatchAttempt cs = none := by
  unfold rgbMatchAttempt
  split
  · rename_i rest
    by_cases h : rest.length = 0
    · rw [if_pos h]
      rw [List.length_eq_zero.mp h]
      rfl
    · rw [if_neg h]
  · rfl

theorem rgbScan_eq_none (cs : List Char) : rgbScan cs = none := by
  induction cs with
  | nil => rfl
  | cons c cs ih => simp only [rgbScan, rgbMatchAttempt_eq_none, ih]

theorem parseRgb_eq_zero (s : String) : parseRgb s = (0, 0, 0) := by
  simp [parseRgb, rgbScan_eq_none]

theorem colorDistance_eq_zero (c1 c2 : String) : colorDistance c1 c2 = 0 := by
  simp [colorDistance, parseRgb_eq_zero]

theorem foldl_min_zero (l : List String) (init : ℝ) (h0 : 0 ≤ init) (hl : l ≠ []) :
    l.foldl (fun (best : ℝ) _ => min best 0) init = 0 := by
  induction l generalizing init with
  | nil => exact absurd rfl hl
  | cons b t ih =>
    simp only [List.foldl_cons]
    rcases eq_or_ne t [] with rfl | ht
    · simp [min_eq_right h0]
    · exact ih (min init 0) (le_min h0 le_rfl) ht

theorem foldl_min_colorDistance_eq_zero (c : String) (l : List String) (init : ℝ)
    (h0 : 0 ≤ init) (hl : l ≠ []) :
    l.foldl (fun best cB => min best (colorDistance c cB)) init = 0 := by
  have hfun : (fun (best : ℝ) cB => min best (colorDistance c cB)) =
      (fun (best : ℝ) _ => min best 0) := by
    funext best cB
    rw [colorDistance_eq_zero]
  rw [hfun]
  exact foldl_min_zero l init h0 hl

theorem sum_map_eq_length {l : List String} {g : String → ℝ}
    (hg : ∀ x ∈ l, g x = 1) : (l.map g).sum = (l.length : ℝ) := by
  induction l with
  | nil => simp
  | cons a t ih =>
    simp only [List.map_cons, List.sum_cons, List.length_cons]
    rw [hg a (by simp), ih (fun x hx => hg x (List.mem_cons_of_mem _ hx))]
    push_cast
    ring

/-- Claim C2: for every pair of non-empty dominant-color lists whose
entries are in the `rgb(r,g,b)` format of metadata extraction,
`colorSimilarity` returns exactly `1.0`: the parsing regular expression
`/rgb$$(\d+),(\d+),(\d+)$$/` cannot match that format (its `$` anchors
sit before the digit groups), so every color parses to `[0,0,0]` and
every pairwise color distance is `0`. -/
theorem colorSimilarity_rgb_format_eq_one (la lb : List String)
    (ha : la ≠ []) (hb : lb ≠ [])
    (hfa : ∀ s ∈ la, isRgbFormat s) (hfb : ∀ s ∈ lb, isRgbFormat s) :
    colorSimilarity (some la) (some lb) = 1 := by
  have hcond : ¬(la.length = 0 ∨ lb.length = 0) := by
    simp only [List.length_eq_zero]
    tauto
  simp only [colorSimilarity, if_neg hcond]
  have htb : lb.take 3 ≠ [] := by
    simp only [ne_eq, List.take_eq_nil_iff]
    tauto
  rw [sum_map_eq_length (fun x _ => by
    rw [foldl_min_colorDistance_eq_zero x (lb.take 3) 1.0 (by norm_num) htb]
    ring)]
  have hta : ((la.take 3).length : ℝ) ≠ 0 := by
    simp only [ne_eq, Nat.cast_eq_zero, List.length_eq_zero, List.take_eq_nil_iff]
    tauto
  exact div_self hta

/-- Witness for C2 at concrete rgb-format lists. -/
theorem colorSimilarity_rgb_format_eq_one_witness :
    colorSimilarity (some ["rgb(40,80,120)"]) (some ["rgb(0,0,0)", "rgb(255,255,255)"]) = 1 :=
  colorSimilarity_rgb_format_eq_one _ _ (by simp) (by simp)
    (by
      intro s hs
      simp only [List.mem_cons, List.not_mem_nil, or_false] at hs
      rcases hs with rfl
      exact ⟨40, 80, 120, by decide⟩)
    (by
      intro s hs
      simp only [List.mem_cons, List.not_mem_nil, or_false] at hs
      rcases hs with rfl | rfl
      · exact ⟨0, 0, 0, by decide⟩
      · exact ⟨255, 255, 255, by decide⟩)

/-! ## Claim C3: the identical-OCR scenario -/

/-- Counterexample to claim C3 at the exact scenario input: for two
identical OCR inputs with text `"hello world"` and words
`[{"hello", 0.9}, {"world", 0.9}]`, the weighted Jaccard component is
`0.9` — per-word intersection weight `0.9 · 0.9` against union weight
`0.9` — and not `1` (the fuzzy component is indeed `0`). -/
theorem textSimilarity_scenario_jaccard_ne_one :
    (weightedJaccard (wordsMapOf tHelloWorld.words) (wordsMapOf tHelloWorld.words) = 9 / 10 ∧
      calculateFuzzyMatches (wordsMapOf tHelloWorld.words) (wordsMapOf tHelloWorld.words) = 0) ∧
    ¬ weightedJaccard (wordsMapOf tHelloWorld.words) (wordsMapOf tHelloWorld.words) = 1 := by
  decide

/-- Claim C3 (amended): for the identical-OCR scenario the weighted
Jaccard component of `calculateTextSimilarity` equals `0.9`, the fuzzy
component equals `0`, the phrase bonus (rule 4) equals `0.4`, and the
exact combined value is `0.5·0.9 + 0.3·0.4 + 0.2·0 = 0.57`. -/
theorem textSimilarity_scenario_exact :
    weightedJaccard (wordsMapOf tHelloWorld.words) (wordsMapOf tHelloWorld.words) = 9 / 10 ∧
      calculateFuzzyMatches (wordsMapOf tHelloWorld.words) (wordsMapOf tHelloWorld.words) = 0 ∧
      calculatePhraseMatches (α := ℚ) tHelloWorld.text tHelloWorld.text = 2 / 5 ∧
      calculateTextSimilarity tHelloWorld tHelloWorld = 57 / 100 := by
  decide

/-! ## Claim C5: the largest-gap threshold rule -/

/-- Counterexample to claim C5: in the descending batch
`[0.78, 0.5, 0.45]` the largest gap `0.28 > 0.1` sits between the first
two scores, so `findGapIndex` returns `0`, the gap branch is skipped
(`gapIndex > 0` fails), and the returned threshold `0.45` is *below*
`min(0.85, midpoint) = 0.64`. -/
theorem threshold_gap_claim_false :
    List.Pairwise (fun a b : Scored ℚ => a.similarity ≥ b.similarity)
        [mkScoredQ 0.78 0, mkScoredQ 0.5 0, mkScoredQ 0.45 0] ∧
      (analyzeDistribution
          (([mkScoredQ 0.78 0, mkScoredQ 0.5 0, mkScoredQ 0.45 0]).map
            (fun r => r.similarity))).gaps.headD 0 > 0.1 ∧
      determineOptimalThreshold [mkScoredQ 0.78 0, mkScoredQ 0.5 0, mkScoredQ 0.45 0]
          (analyzeDistribution
            (([mkScoredQ 0.78 0, mkScoredQ 0.5 0, mkScoredQ 0.45 0]).map
              (fun r => r.similarity))) = 0.45 ∧
      determineOptimalThreshold [mkScoredQ 0.78 0, mkScoredQ 0.5 0, mkScoredQ 0.45 0]
          (analyzeDistribution
            (([mkScoredQ 0.78 0, mkScoredQ 0.5 0, mkScoredQ 0.45 0]).map
              (fun r => r.similarity))) <
        min 0.85 ((0.78 + 0.5) / 2) := by
  decide

/-- Claim C5 (amended): for every batch of at least 3 scored results
sorted descending whose largest gap exceeds `0.1`, *provided* the gap
locator finds the gap at an interior index (`findGapIndex > 0`; the
source skips the rule when the largest gap sits between the first two
scores) and no result has a text metric above `0.5` (the text rule
multiplies the threshold by `0.9`), the returned threshold is at least
the minimum of `0.85` and the midpoint of the two scores straddling the
located gap. -/
theorem threshold_gap_midpoint_lower_bound {α : Type} [LinearOrderedField α]
    [DecidableEq α] [DecidableRel ((· < ·) : α → α → Prop)]
    [DecidableRel ((· ≤ ·) : α → α → Prop)]
    (results : List (Scored α)) (stats : Stats α)
    (hsorted : List.Pairwise (fun a b : Scored α => a.similarity ≥ b.similarity) results)
    (hlen : 3 ≤ results.length)
    (hstats : stats = analyzeDistribution (results.map (fun r => r.similarity)))
    (hgaps : 0 < stats.gaps.length)
    (hgap : stats.gaps.headD 0 > 0.1)
    (hpos : 0 < findGapIndex (results.map (fun r => r.similarity)) (stats.gaps.headD 0))
    (hlt : findGapIndex (results.map (fun r => r.similarity)) (stats.gaps.headD 0) <
      (results.length : ℤ) - 1)
    (htext : ∀ r ∈ results, r.metrics.text ≤ 0.5) :
    min 0.85
        (((results.map (fun r => r.similarity)).getD
            (findGapIndex (results.map (fun r => r.similarity))
              (stats.gaps.headD 0)).toNat 0 +
          (results.map (fun r => r.similarity)).getD
            ((findGapIndex (results.map (fun r => r.similarity))
              (stats.gaps.headD 0)).toNat + 1) 0) / 2) ≤
      determineOptimalThreshold results stats := by
  have key : ∃ T, determineOptimalThreshold results stats = min (max 0.4 T) 0.85 ∧
      ((results.map (fun r => r.similarity)).getD
          (findGapIndex (results.map (fun r => r.similarity))
            (stats.gaps.headD 0)).toNat 0 +
        (results.map (fun r => r.similarity)).getD
          ((findGapIndex (results.map (fun r => r.similarity))
            (stats.gaps.headD 0)).toNat + 1) 0) / 2 ≤ T := by
    refine ⟨_, rfl, ?_⟩
    rw [if_pos hlen]
    dsimp only
    rw [if_pos (⟨hgaps, hgap⟩ : 0 < stats.gaps.length ∧ stats.gaps.headD 0 > 0.1),
      if_pos (And.intro hpos hlt)]
    have hany : (results.any fun r => decide (r.metrics.text > 0.5)) = false := by
      rw [List.any_eq_false]
      intro r hr
      simpa using not_lt.mpr (htext r hr)
    rw [hany, if_neg Bool.false_ne_true]
    split_ifs with h2 h3 h4
    · exact le_trans (le_max_right _ _) (le_trans (le_max_left _ _) (le_max_left _ _))
    · exact le_trans (le_max_right _ _) (le_max_left _ _)
    · exact le_trans (le_max_right _ _) (le_max_left _ _)
    · exact le_max_right _ _
  obtain ⟨T, hT, hMT⟩ := key
  rw [hT]
  exact le_min (le_trans (min_le_right _ _) (le_trans hMT (le_max_right _ _)))
    (min_le_left _ _)

/-- Witness for the amended C5 at a concrete batch whose largest gap is
interior: `[0.8, 0.75, 0.5, 0.45]` (largest gap `0.25` between indices
1 and 2, midpoint `0.625`, `min(0.85, 0.625) = 0.625`). -/
theorem threshold_gap_midpoint_lower_bound_witness :
    (5 : ℚ) / 8 ≤
      determineOptimalThreshold
        [mkScoredQ 0.8 0, mkScoredQ 0.75 0, mkScoredQ 0.5 0, mkScoredQ 0.45 0]
        (analyzeDistribution
          ([mkScoredQ 0.8 0, mkScoredQ 0.75 0, mkScoredQ 0.5 0,
            mkScoredQ 0.45 0].map (fun r => r.similarity))) := by
  have H := threshold_gap_midpoint_lower_bound
    [mkScoredQ 0.8 0, mkScoredQ 0.75 0, mkScoredQ 0.5 0, mkScoredQ 0.45 0]
    (analyzeDistribution
      ([mkScoredQ 0.8 0, mkScoredQ 0.75 0, mkScoredQ 0.5 0,
        mkScoredQ 0.45 0].map (fun r => r.similarity)))
    (by decide) (by decide) rfl (by decide) (by decide) (by decide) (by decide)
    (by decide)
  exact le_trans (le_min (by decide) (by decide)) H

/-! ## Claims C6 and C10: the adaptive weight selector -/

set_option maxHeartbeats 1000000 in
theorem adaptiveWeightsRaw_pos {α : Type} [LinearOrderedField α] [DecidableEq α]
    [DecidableRel ((· < ·) : α → α → Prop)] [DecidableRel ((· ≤ ·) : α → α → Prop)]
    (ch : Characteristics) (hasSig : Bool) (ts cs es cols : α)
    (h0 : 0 ≤ ts) (h1 : ts ≤ 1) :
    0 < (adaptiveWeightsRaw ch hasSig ts cs es cols).cosine ∧
      0 < (adaptiveWeightsRaw ch hasSig ts cs es cols).euclidean ∧
      0 < (adaptiveWeightsRaw ch hasSig ts cs es cols).manhattan ∧
      0 < (adaptiveWeightsRaw ch hasSig ts cs es cols).color ∧
      0 < (adaptiveWeightsRaw ch hasSig ts cs es cols).visualProps ∧
      0 < (adaptiveWeightsRaw ch hasSig ts cs es cols).text := by
  unfold adaptiveWeightsRaw
  dsimp only
  split_ifs <;>
    refine ⟨?_, ?_, ?_, ?_, ?_, ?_⟩ <;>
    dsimp only <;>
    (try simp only [min_def]) <;>
    (try split_ifs) <;>
    linarith only [h0, h1]

/-- Claim C6: for every combination of characteristic flags,
`hasSignificantText`, and raw component scores — the text score, the
only one entering the weight arithmetic, lying in `[0, 1]` as the text
engine produces it — the six weights returned by `getAdaptiveWeights`
sum to `1.0` within `1e-9` (they sum to exactly `1`). -/
theorem getAdaptiveWeights_sum_one {α : Type} [LinearOrderedField α] [DecidableEq α]
    [DecidableRel ((· < ·) : α → α → Prop)] [DecidableRel ((· ≤ ·) : α → α → Prop)]
    (ch : Characteristics) (hasSig : Bool) (ts cs es cols : α)
    (h0 : 0 ≤ ts) (h1 : ts ≤ 1) :
    |weightsSum (getAdaptiveWeights ch hasSig ts cs es cols) - 1| ≤ 1 / 1000000000 := by
  obtain ⟨hc, he, hm, hcol, hv, ht⟩ := adaptiveWeightsRaw_pos ch hasSig ts cs es cols h0 h1
  have hT : (0 : α) < weightsSum (adaptiveWeightsRaw ch hasSig ts cs es cols) := by
    unfold weightsSum
    linarith
  have hsum : weightsSum (getAdaptiveWeights ch hasSig ts cs es cols) = 1 := by
    simp only [getAdaptiveWeights, weightsSum]
    rw [div_add_div_same, div_add_div_same, div_add_div_same, div_add_div_same,
      div_add_div_same]
    exact div_self (by unfold weightsSum at hT; exact ne_of_gt hT)
  rw [hsum]
  simp only [sub_self, abs_zero]
  positivity

/-- Witness for C6 at concrete rational inputs (text-heavy branch
taken). -/
theorem getAdaptiveWeights_sum_one_witness :
    |weightsSum (getAdaptiveWeights ⟨true, true, false, true⟩ true
        (0.5 : ℚ) 0.9 0.4 0.85) - 1| ≤ 1 / 1000000000 :=
  getAdaptiveWeights_sum_one ⟨true, true, false, true⟩ true 0.5 0.9 0.4 0.85
    (by norm_num) (by norm_num)

/-- Claim C10: for every input to the adaptive weight selector (with
the text score in `[0, 1]`, the range the text engine produces), all
six pre-normalization weights are strictly positive, so the
normalizing division is by a strictly positive sum and every returned
weight lies strictly between `0` and `1`. -/
theorem getAdaptiveWeights_pos_lt_one {α : Type} [LinearOrderedField α] [DecidableEq α]
    [DecidableRel ((· < ·) : α → α → Prop)] [DecidableRel ((· ≤ ·) : α → α → Prop)]
    (ch : Characteristics) (hasSig : Bool) (ts cs es cols : α)
    (h0 : 0 ≤ ts) (h1 : ts ≤ 1) :
    (0 < (adaptiveWeightsRaw ch hasSig ts cs es cols).cosine ∧
      0 < (adaptiveWeightsRaw ch hasSig ts cs es cols).euclidean ∧
      0 < (adaptiveWeightsRaw ch hasSig ts cs es cols).manhattan ∧
      0 < (adaptiveWeightsRaw ch hasSig ts cs es cols).color ∧
      0 < (adaptiveWeightsRaw ch hasSig ts cs es cols).visualProps ∧
      0 < (adaptiveWeightsRaw ch hasSig ts cs es cols).text) ∧
    0 < weightsSum (adaptiveWeightsRaw ch hasSig ts cs es cols) ∧
    ((0 < (getAdaptiveWeights ch hasSig ts cs es cols).cosine ∧
        (getAdaptiveWeights ch hasSig ts cs es cols).cosine < 1) ∧
      (0 < (getAdaptiveWeights ch hasSig ts cs es cols).euclidean ∧
        (getAdaptiveWeights ch hasSig ts cs es cols).euclidean < 1) ∧
      (0 < (getAdaptiveWeights ch hasSig ts cs es cols).manhattan ∧
        (getAdaptiveWeights ch hasSig ts cs es cols).manhattan < 1) ∧
      (0 < (getAdaptiveWeights ch hasSig ts cs es cols).color ∧
        (getAdaptiveWeights ch hasSig ts cs es cols).color < 1) ∧
      (0 < (getAdaptiveWeights ch hasSig ts cs es cols).visualProps ∧
        (getAdaptiveWeights ch hasSig ts cs es cols).visualProps < 1) ∧
      (0 < (getAdaptiveWeights ch hasSig ts cs es cols).text ∧
        (getAdaptiveWeights ch hasSig ts cs es cols).text < 1)) := by
  obtain ⟨hc, he, hm, hcol, hv, ht⟩ := adaptiveWeightsRaw_pos ch hasSig ts cs es cols h0 h1
  have hT : (0 : α) < weightsSum (adaptiveWeightsRaw ch hasSig ts cs es cols) := by
    unfold weightsSum
    linarith
  refine ⟨⟨hc, he, hm, hcol, hv, ht⟩, hT, ?_⟩
  have hTs := hT
  unfold weightsSum at hTs
  simp only [getAdaptiveWeights]
  refine ⟨⟨div_pos hc hT, ?_⟩, ⟨div_pos he hT, ?_⟩, ⟨div_pos hm hT, ?_⟩,
    ⟨div_pos hcol hT, ?_⟩, ⟨div_pos hv hT, ?_⟩, ⟨div_pos ht hT, ?_⟩⟩ <;>
    · rw [div_lt_one hT]
      unfold weightsSum
      linarith

/-- Witness for C10 at concrete rational inputs. -/
theorem getAdaptiveWeights_pos_lt_one_witness :
    (0 < (adaptiveWeightsRaw ⟨false, true, true, true⟩ true (1 : ℚ) 0.9 0.4 0.85).cosine ∧
      0 < (adaptiveWeightsRaw ⟨false, true, true, true⟩ true (1 : ℚ) 0.9 0.4 0.85).euclidean ∧
      0 < (adaptiveWeightsRaw ⟨false, true, true, true⟩ true (1 : ℚ) 0.9 0.4 0.85).manhattan ∧
      0 < (adaptiveWeightsRaw ⟨false, true, true, true⟩ true (1 : ℚ) 0.9 0.4 0.85).color ∧
      0 < (adaptiveWeightsRaw ⟨false, true, true, true⟩ true (1 : ℚ) 0.9 0.4 0.85).visualProps ∧
      0 < (adaptiveWeightsRaw ⟨false, true, true, true⟩ true (1 : ℚ) 0.9 0.4 0.85).text) ∧
    0 < weightsSum (adaptiveWeightsRaw ⟨false, true, true, true⟩ true (1 : ℚ) 0.9 0.4 0.85) ∧
    ((0 < (getAdaptiveWeights ⟨false, true, true, true⟩ true (1 : ℚ) 0.9 0.4 0.85).cosine ∧
        (getAdaptiveWeights ⟨false, true, true, true⟩ true (1 : ℚ) 0.9 0.4 0.85).cosine < 1) ∧
      (0 < (getAdaptiveWeights ⟨false, true, true, true⟩ true (1 : ℚ) 0.9 0.4 0.85).euclidean ∧
        (getAdaptiveWeights ⟨false, true, true, true⟩ true (1 : ℚ) 0.9 0.4 0.85).euclidean < 1) ∧
      (0 < (getAdaptiveWeights ⟨false, true, true, true⟩ true (1 : ℚ) 0.9 0.4 0.85).manhattan ∧
        (getAdaptiveWeights ⟨false, true, true, true⟩ true (1 : ℚ) 0.9 0.4 0.85).manhattan < 1) ∧
      (0 < (getAdaptiveWeights ⟨false, true, true, true⟩ true (1 : ℚ) 0.9 0.4 0.85).color ∧
        (getAdaptiveWeights ⟨false, true, true, true⟩ true (1 : ℚ) 0.9 0.4 0.85).color < 1) ∧
      (0 < (getAdaptiveWeights ⟨false, true, true, true⟩ true (1 : ℚ) 0.9 0.4 0.85).visualProps ∧
        (getAdaptiveWeights ⟨false, true, true, true⟩ true (1 : ℚ) 0.9 0.4 0.85).visualProps < 1) ∧
      (0 < (getAdaptiveWeights ⟨false, true, true, true⟩ true (1 : ℚ) 0.9 0.4 0.85).text ∧
        (getAdaptiveWeights ⟨false, true, true, true⟩ true (1 : ℚ) 0.9 0.4 0.85).text < 1)) :=
  getAdaptiveWeights_pos_lt_one ⟨false, true, true, true⟩ true 1 0.9 0.4 0.85
    (by norm_num) (by norm_num)

/-! ## Claim C4: range of the euclidean similarity -/

theorem sum_map_sq_nonneg (l : List ℝ) : 0 ≤ (l.map (fun x => x * x)).sum := by
  apply List.sum_nonneg
  intro y hy
  obtain ⟨x, _, rfl⟩ := List.mem_map.mp hy
  exact mul_self_nonneg x

theorem sum_zip_sq_le (a b : List ℝ) :
    ((a.zip b).map (fun p => (p.1 - p.2) * (p.1 - p.2))).sum ≤
      2 * (a.map (fun x => x * x)).sum + 2 * (b.map (fun x => x * x)).sum := by
  induction a generalizing b with
  | nil =>
    have := sum_map_sq_nonneg b
    simp
    linarith
  | cons x xs ih =>
    cases b with
    | nil =>
      have h1 := sum_map_sq_nonneg xs
      have h2 := mul_self_nonneg x
      simp
      linarith
    | cons y ys =>
      have h1 := ih ys
      simp only [List.zip_cons_cons, List.map_cons, List.sum_cons]
      nlinarith [sq_nonneg (x + y)]

/-- Counterexample to claim C4: the equal-length unit vectors `[1, 0]`
and `[-1, 0]` are at euclidean distance `2`, so the euclidean
similarity `1 − 2/√2 = 1 − √2` is negative — outside `[0, 1]`. -/
theorem euclideanSim_out_of_range :
    ([(1 : ℝ), 0].length = [(-1 : ℝ), 0].length ∧
      isUnitVector [(1 : ℝ), 0] ∧ isUnitVector [(-1 : ℝ), 0]) ∧
    euclideanSimOf [(1 : ℝ), 0] [(-1 : ℝ), 0] < 0 := by
  refine ⟨⟨rfl, by norm_num [isUnitVector], by norm_num [isUnitVector]⟩, ?_⟩
  have hd : euclideanDistance [(1 : ℝ), 0] [(-1 : ℝ), 0] = 2 := by
    unfold euclideanDistance
    norm_num
    rw [show (4 : ℝ) = 2 ^ 2 by norm_num]
    exact Real.sqrt_sq (by norm_num)
  have h1 : (1 : ℝ) < Real.sqrt 2 := by
    have h := Real.sqrt_lt_sqrt (by norm_num : (0 : ℝ) ≤ 1) (by norm_num : (1 : ℝ) < 2)
    simpa using h
  have h22 : (2 : ℝ) / Real.sqrt 2 = Real.sqrt 2 := Real.div_sqrt
  unfold euclideanSimOf
  rw [hd, h22]
  linarith

/-- Claim C4 (amended): for every pair of equal-length unit-normalized
vectors, the euclidean similarity `1 − euclideanDistance/√2` lies in
`[1 − √2, 1]` (the distance between unit vectors can reach `2`, not
`√2`; the lower end `1 − √2 ≈ −0.414` is attained at antipodal
vectors). -/
theorem euclideanSim_range (a b : List ℝ) (hlen : a.length = b.length)
    (ha : isUnitVector a) (hb : isUnitVector b) :
    1 - Real.sqrt 2 ≤ euclideanSimOf a b ∧ euclideanSimOf a b ≤ 1 := by
  have hS : ((a.zip b).map (fun p => (p.1 - p.2) * (p.1 - p.2))).sum ≤ 4 := by
    have h := sum_zip_sq_le a b
    unfold isUnitVector at ha hb
    linarith
  have hd : euclideanDistance a b ≤ 2 := by
    unfold euclideanDistance
    calc Real.sqrt (((a.zip b).map (fun p => (p.1 - p.2) * (p.1 - p.2))).sum)
        ≤ Real.sqrt 4 := Real.sqrt_le_sqrt hS
      _ = 2 := by
        rw [show (4 : ℝ) = 2 ^ 2 by norm_num]
        exact Real.sqrt_sq (by norm_num)
  have h2 : (0 : ℝ) < Real.sqrt 2 := Real.sqrt_pos.mpr (by norm_num)
  have h22 : (2 : ℝ) / Real.sqrt 2 = Real.sqrt 2 := Real.div_sqrt
  constructor
  · have hdiv : euclideanDistance a b / Real.sqrt 2 ≤ 2 / Real.sqrt 2 :=
      (div_le_div_iff_of_pos_right h2).mpr hd
    unfold euclideanSimOf
    linarith
  · have hdiv : 0 ≤ euclideanDistance a b / Real.sqrt 2 :=
      div_nonneg (Real.sqrt_nonneg _) (le_of_lt h2)
    unfold euclideanSimOf
    linarith

/-- Witness for the amended C4 at the concrete orthogonal unit pair
`[1, 0]`, `[0, 1]`. -/
theorem euclideanSim_range_witness :
    1 - Real.sqrt 2 ≤ euclideanSimOf [(1 : ℝ), 0] [(0 : ℝ), 1] ∧
      euclideanSimOf [(1 : ℝ), 0] [(0 : ℝ), 1] ≤ 1 :=
  euclideanSim_range [(1 : ℝ), 0] [(0 : ℝ), 1] rfl
    (by norm_num [isUnitVector]) (by norm_num [isUnitVector])

/-! ## Claim C1: the "query" metadata source -/

/-- Claim C1 (the code violates it): in every `searchImagesByEmbedding`
call on a nonempty store, the visual metadata used on the query side of
`colorSimilarity` and `visualPropertiesSimilarity` — for every scored
record — is `extractImageMetadata(images[0].dataUrl)`, i.e. it is
derived from the *first stored record's* image.  The query image is not
even an input of the search; the code's own comment ("Extract metadata
from the query image") and the spec's step 2 say it should come from
the query. -/
theorem search_query_metadata_from_first_record (f : String → VisualMetadata ℝ)
    (i0 : ImageRecord ℝ) (rest : List (ImageRecord ℝ)) (embedding : List ℝ)
    (textContent : Option (TextContent ℝ)) (r : Scored ℝ)
    (hr : r ∈ searchImagesByEmbedding f (i0 :: rest) embedding textContent) :
    r.metrics.color = recordColorMetric (f i0.dataUrl) r.record ∧
      r.metrics.visualProps =
        visualPropertiesSimilarity (some (f i0.dataUrl)) r.record.metadata := by
  have h1 : r ∈ sortScoredDesc
      (calculateSimilarities (i0 :: rest) embedding (f i0.dataUrl) textContent) :=
    List.mem_of_mem_filter (List.mem_of_mem_take hr)
  have h2 : r ∈ calculateSimilarities (i0 :: rest) embedding (f i0.dataUrl) textContent :=
    mem_sortScoredDesc.mp h1
  obtain ⟨img, himg, rfl⟩ := List.mem_map.mp h2
  exact ⟨rfl, rfl⟩

theorem scoreRecord_single_similarity :
    (scoreRecord [] emptyVisualMetadataR none recU).similarity = 0.525 := by
  unfold scoreRecord
  dsimp only
  norm_num [cosineSimilarity, euclideanSimOf, euclideanDistance, manhattanDistance,
    recordColorMetric, recU, emptyVisualMetadataR, visualPropertiesSimilarity,
    analyzeImageCharacteristics, getAdaptiveWeights, adaptiveWeightsRaw, weightsSum,
    Real.sqrt_zero]

theorem search_single_recU :
    searchImagesByEmbedding (fun _ => emptyVisualMetadataR) [recU] [] none =
      [scoreRecord [] emptyVisualMetadataR none recU] := by
  have hthr : determineOptimalThreshold [scoreRecord [] emptyVisualMetadataR none recU]
      (analyzeDistribution
        ([scoreRecord [] emptyVisualMetadataR none recU].map (fun r => r.similarity))) =
      0.45 := by
    unfold determineOptimalThreshold
    dsimp only
    rw [if_neg (by norm_num : ¬(3 ≤ ([scoreRecord [] emptyVisualMetadataR none recU] :
      List (Scored ℝ)).length))]
    rw [max_eq_right (by norm_num : (0.4 : ℝ) ≤ 0.45),
      min_eq_left (by norm_num : (0.45 : ℝ) ≤ 0.85)]
  simp only [searchImagesByEmbedding, calculateSimilarities, List.map_cons, List.map_nil]
  simp only [show sortScoredDesc [scoreRecord [] emptyVisualMetadataR none recU] =
    [scoreRecord [] emptyVisualMetadataR none recU] from rfl]
  simp only [hthr]
  rw [List.filter_cons,
    show (decide ((0.45 : ℝ) < (scoreRecord [] emptyVisualMetadataR none recU).similarity)) =
      true from decide_eq_true (by rw [scoreRecord_single_similarity]; norm_num)]
  simp

/-- Witness for C1 at a concrete call: a store holding the single bare
record `recU`, an empty query vector and no query text. -/
theorem search_query_metadata_from_first_record_witness :
    scoreRecord [] emptyVisualMetadataR none recU ∈
        searchImagesByEmbedding (fun _ => emptyVisualMetadataR) [recU] [] none ∧
      ((scoreRecord [] emptyVisualMetadataR none recU).metrics.color =
          recordColorMetric ((fun _ : String => emptyVisualMetadataR) recU.dataUrl)
            (scoreRecord [] emptyVisualMetadataR none recU).record ∧
        (scoreRecord [] emptyVisualMetadataR none recU).metrics.visualProps =
          visualPropertiesSimilarity
            (some ((fun _ : String => emptyVisualMetadataR) recU.dataUrl))
            (scoreRecord [] emptyVisualMetadataR none recU).record.metadata) := by
  have hmem : scoreRecord [] emptyVisualMetadataR none recU ∈
      searchImagesByEmbedding (fun _ => emptyVisualMetadataR) [recU] [] none := by
    rw [search_single_recU]
    exact List.mem_singleton_self _
  exact ⟨hmem, search_query_metadata_from_first_record
    (fun _ => emptyVisualMetadataR) recU [] [] none _ hmem⟩

/-! ## Supporting range lemmas for the Text Similarity Engine

With word confidences in `[0, 1]`, `calculateTextSimilarity` returns a
value in `[0, 1]`; this justifies the score-range hypotheses of the
weight-selector theorems above. -/

section TextRange

variable {α : Type} [LinearOrderedField α] [DecidableEq α]
variable [DecidableRel ((· < ·) : α → α → Prop)]
variable [DecidableRel ((· ≤ ·) : α → α → Prop)]

theorem foldl_invariant {β γ : Type} (P : γ → Prop) (step : γ → β → γ) :
    ∀ l : List β, (∀ acc, ∀ x ∈ l, P acc → P (step acc x)) →
      ∀ acc : γ, P acc → P (l.foldl step acc) := by
  intro l
  induction l with
  | nil =>
    intro _ acc hacc
    exact hacc
  | cons x xs ih =>
    intro h acc hacc
    exact ih (fun a y hy ha => h a y (List.mem_cons_of_mem _ hy) ha) _
      (h acc x (by simp) hacc)

theorem sum_map_nonneg {β : Type} (l : List β) (f : β → α)
    (h : ∀ x ∈ l, 0 ≤ f x) : 0 ≤ (l.map f).sum := by
  induction l with
  | nil => simp
  | cons x xs ih =>
    simp only [List.map_cons, List.sum_cons]
    have h1 := h x (by simp)
    have h2 := ih (fun y hy => h y (List.mem_cons_of_mem _ hy))
    linarith

theorem sum_map_le_sum_map {β : Type} (l : List β) (f g : β → α)
    (h : ∀ x ∈ l, f x ≤ g x) : (l.map f).sum ≤ (l.map g).sum := by
  induction l with
  | nil => simp
  | cons x xs ih =>
    simp only [List.map_cons, List.sum_cons]
    have h1 := h x (by simp)
    have h2 := ih (fun y hy => h y (List.mem_cons_of_mem _ hy))
    linarith

theorem calculateWordImportance_nonneg (w : String) :
    0 ≤ (calculateWordImportance w : α) := by
  unfold calculateWordImportance
  dsimp only
  have h1 : (0 : α) ≤ min 1 ((w.length : α) / 5) := le_min (by norm_num) (by positivity)
  split_ifs <;> nlinarith

theorem insertWord_conf (P : α → Prop) (hP : ∀ a b, P a → P b → P (max a b))
    (m : List (WordEntry α)) (w : String) (c : α)
    (hm : ∀ e ∈ m, P e.2.1) (hc : P c) :
    ∀ e ∈ insertWord m w c, P e.2.1 := by
  induction m with
  | nil =>
    intro e he
    simp only [insertWord, List.mem_singleton] at he
    rw [he]
    exact hc
  | cons a m ih =>
    intro e he
    by_cases hw : a.1 = w
    · rw [show insertWord (a :: m) w c = (a.1, max a.2.1 c, a.2.2 + 1) :: m from by
        simp [insertWord, hw]] at he
      rcases List.mem_cons.mp he with he' | hmem
      · rw [he']
        exact hP _ _ (hm a (by simp)) hc
      · exact hm e (List.mem_cons_of_mem _ hmem)
    · rw [show insertWord (a :: m) w c = a :: insertWord m w c from by
        simp [insertWord, hw]] at he
      rcases List.mem_cons.mp he with he' | hmem
      · rw [he']
        exact hm a (by simp)
      · exact ih (fun x hx => hm x (List.mem_cons_of_mem _ hx)) e hmem

theorem wordsMapOf_conf (P : α → Prop) (hP : ∀ a b, P a → P b → P (max a b))
    (ws : List (OcrWord α)) (hws : ∀ x ∈ ws, P x.confidence) :
    ∀ e ∈ wordsMapOf ws, P e.2.1 := by
  unfold wordsMapOf
  have key : ∀ (l : List (OcrWord α)) (m : List (WordEntry α)),
      (∀ x ∈ l, P x.confidence) → (∀ e ∈ m, P e.2.1) →
      ∀ e ∈ l.foldl
        (fun m w => if w.text.length < 2 then m else insertWord m w.text w.confidence) m,
        P e.2.1 := by
    intro l
    induction l with
    | nil => intro m _ hm; exact hm
    | cons x xs ih =>
      intro m hl hm
      simp only [List.foldl_cons]
      apply ih _ (fun y hy => hl y (List.mem_cons_of_mem _ hy))
      split_ifs
      · exact hm
      · exact insertWord_conf P hP m x.text x.confidence hm (hl x (by simp))
  exact key ws [] hws (by simp)

theorem lookupWord_conf (P : α → Prop) (m : List (WordEntry α)) (w : String)
    (hm : ∀ e ∈ m, P e.2.1) {p : α × ℕ} (hp : lookupWord m w = some p) : P p.1 := by
  unfold lookupWord at hp
  rcases Option.map_eq_some'.mp hp with ⟨e, he, rfl⟩
  exact hm e (List.mem_of_find?_eq_some he)

theorem weightedJaccard_nonneg (mA mB : List (WordEntry α))
    (hA : ∀ e ∈ mA, 0 ≤ e.2.1) (hB : ∀ e ∈ mB, 0 ≤ e.2.1) :
    0 ≤ weightedJaccard mA mB := by
  unfold weightedJaccard
  dsimp only
  split_ifs with h
  · apply div_nonneg _ (le_of_lt h)
    apply sum_map_nonneg
    intro e he
    cases hlk : lookupWord mB e.1 with
    | none => simp
    | some cb =>
      have hcb := lookupWord_conf (fun c => 0 ≤ c) mB e.1 hB hlk
      have hea := hA e he
      have himp := calculateWordImportance_nonneg (α := α) e.1
      positivity
  · exact le_rfl

theorem weightedJaccard_le_one (mA mB : List (WordEntry α))
    (hA : ∀ e ∈ mA, 0 ≤ e.2.1) (hB : ∀ e ∈ mB, 0 ≤ e.2.1 ∧ e.2.1 ≤ 1) :
    weightedJaccard mA mB ≤ 1 := by
  unfold weightedJaccard
  dsimp only
  split_ifs with h
  · rw [div_le_one h]
    have hBonly : 0 ≤ ((mB.filter (fun e => lookupWord mA e.1 = none)).map
        (fun e => e.2.1 * ((e.2.2 : ℕ) : α) * calculateWordImportance e.1)).sum := by
      apply sum_map_nonneg
      intro e he
      have := (hB e (List.mem_of_mem_filter he)).1
      have himp := calculateWordImportance_nonneg (α := α) e.1
      positivity
    have hmain : (mA.map (fun e =>
        match lookupWord mB e.1 with
        | some cb => e.2.1 * cb.1 * ((min e.2.2 cb.2 : ℕ) : α) * calculateWordImportance e.1
        | none => 0)).sum ≤
        (mA.map (fun e => e.2.1 * ((e.2.2 : ℕ) : α) * calculateWordImportance e.1)).sum := by
      apply sum_map_le_sum_map
      intro e he
      have hea := hA e he
      have himp := calculateWordImportance_nonneg (α := α) e.1
      cases hlk : lookupWord mB e.1 with
      | none =>
        simp only
        positivity
      | some cb =>
        simp only
        have hcb := lookupWord_conf (fun c => 0 ≤ c ∧ c ≤ 1) mB e.1 hB hlk
        have hmin : ((min e.2.2 cb.2 : ℕ) : α) ≤ ((e.2.2 : ℕ) : α) :=
          Nat.cast_le.mpr (Nat.min_le_left _ _)
        have hminpos : (0 : α) ≤ ((min e.2.2 cb.2 : ℕ) : α) := Nat.cast_nonneg _
        have s1 : e.2.1 * cb.1 ≤ e.2.1 := mul_le_of_le_one_right hea hcb.2
        have s2 : e.2.1 * cb.1 * ((min e.2.2 cb.2 : ℕ) : α) ≤
            e.2.1 * ((e.2.2 : ℕ) : α) :=
          mul_le_mul s1 hmin hminpos hea
        exact mul_le_mul_of_nonneg_right s2 himp
    linarith
  · norm_num

theorem calculatePhraseMatches_mem (tA tB : String) :
    0 ≤ (calculatePhraseMatches tA tB : α) ∧ (calculatePhraseMatches tA tB : α) ≤ 1 := by
  have hinv : (0 : α) ≤ ((List.range' 2
      (min 6 (min (splitIntoWords tA).length (splitIntoWords tB).length) - 1)).foldl
      (phraseStep (splitIntoWords tA) (splitIntoWords tB))
      ((0, 0, 0) : ℕ × ℕ × α)).2.2 := by
    apply foldl_invariant (fun acc : ℕ × ℕ × α => 0 ≤ acc.2.2)
      (phraseStep (splitIntoWords tA) (splitIntoWords tB)) _ _
      ((0, 0, 0) : ℕ × ℕ × α) (le_refl (0 : α))
    intro acc k _ hacc
    unfold phraseStep
    apply foldl_invariant (fun a : ℕ × ℕ × α => 0 ≤ a.2.2) _ _ _ acc hacc
    intro a p _ ha
    dsimp only
    split_ifs
    · dsimp only
      have hk : (0 : α) ≤ (k : α) * 0.1 := by positivity
      linarith
    · exact ha
  unfold calculatePhraseMatches
  dsimp only
  split_ifs with h hr
  · norm_num
  · refine ⟨le_min (by norm_num) ?_, min_le_left _ _⟩
    have hlen : (0 : α) ≤ (((List.range' 2
        (min 6 (min (splitIntoWords tA).length (splitIntoWords tB).length) - 1)).foldl
        (phraseStep (splitIntoWords tA) (splitIntoWords tB))
        ((0, 0, 0) : ℕ × ℕ × α)).2.1 : α) * 0.1 := by
      positivity
    linarith
  · norm_num

theorem calculateFuzzyMatches_mem (mA mB : List (WordEntry α))
    (hA : ∀ e ∈ mA, 0 ≤ e.2.1) (hB : ∀ e ∈ mB, 0 ≤ e.2.1) :
    0 ≤ calculateFuzzyMatches mA mB ∧ calculateFuzzyMatches mA mB ≤ 1 := by
  unfold calculateFuzzyMatches
  dsimp only
  refine ⟨le_min (by norm_num) ?_, min_le_left _ _⟩
  apply div_nonneg _ (le_trans (by norm_num) (le_max_left 1 _))
  apply foldl_invariant (fun acc : α => 0 ≤ acc) _ mA _ 0 (le_refl (0 : α))
  intro acc ea hea hacc
  dsimp only
  split_ifs with h4
  · exact hacc
  · apply foldl_invariant (fun acc2 : α => 0 ≤ acc2) _ mB _ acc hacc
    intro acc2 eb heb ha2
    dsimp only
    split_ifs with hskip hsim
    · exact ha2
    · have h1 := hA ea hea
      have h2 := hB eb heb
      have h3 := calculateWordImportance_nonneg (α := α) ea.1
      have hs : (0 : α) ≤ 1 - (levenshteinDistance ea.1.data eb.1.data : α) /
          max (ea.1.length : α) (eb.1.length : α) := by linarith
      have hterm := mul_nonneg (mul_nonneg (mul_nonneg hs h1) h2) h3
      linarith
    · exact ha2

/-- Supporting result for C6 and C10: with word confidences in `[0, 1]`
(the OCR producer divides Tesseract's 0–100 confidences by 100), the
text similarity score — the only component score entering the weight
arithmetic of `getAdaptiveWeights` — lies in `[0, 1]`. -/
theorem calculateTextSimilarity_mem_unit (tA tB : TextContent α)
    (hA : ∀ w ∈ tA.words, 0 ≤ w.confidence ∧ w.confidence ≤ 1)
    (hB : ∀ w ∈ tB.words, 0 ≤ w.confidence ∧ w.confidence ≤ 1) :
    0 ≤ calculateTextSimilarity tA tB ∧ calculateTextSimilarity tA tB ≤ 1 := by
  unfold calculateTextSimilarity
  split_ifs with h
  · norm_num
  · dsimp only
    have hmaxP : ∀ a b : α, (0 ≤ a ∧ a ≤ 1) → (0 ≤ b ∧ b ≤ 1) →
        (0 ≤ max a b ∧ max a b ≤ 1) := by
      intro a b ha hb
      exact ⟨le_trans ha.1 (le_max_left a b), max_le ha.2 hb.2⟩
    have hmA := wordsMapOf_conf (fun c : α => 0 ≤ c ∧ c ≤ 1) hmaxP tA.words hA
    have hmB := wordsMapOf_conf (fun c : α => 0 ≤ c ∧ c ≤ 1) hmaxP tB.words hB
    have hj0 := weightedJaccard_nonneg (wordsMapOf tA.words) (wordsMapOf tB.words)
      (fun e he => (hmA e he).1) (fun e he => (hmB e he).1)
    have hj1 := weightedJaccard_le_one (wordsMapOf tA.words) (wordsMapOf tB.words)
      (fun e he => (hmA e he).1) hmB
    have hp := calculatePhraseMatches_mem (α := α) tA.text tB.text
    have hf := calculateFuzzyMatches_mem (wordsMapOf tA.words) (wordsMapOf tB.words)
      (fun e he => (hmA e he).1) (fun e he => (hmB e he).1)
    obtain ⟨hp0, hp1⟩ := hp
    obtain ⟨hf0, hf1⟩ := hf
    constructor <;> nlinarith

end TextRange
